import Mathlib

/-!
Verification of the reward/discovery engine of the surfpool gym environment
(`voyager/surfpool_env.py`): the instruction extractor
(`_get_ordered_instructions`), the discovery-ledger reward calculator
(`_calculate_reward`), and the surrounding environment state transitions
(`step`, `reset`).

The embedding is shallow: transaction records are explicit structures,
the Python dict `program_instructions_seen` is an insertion-ordered list of
keys, Python exceptions (KeyError on a missing inner-instruction index,
IndexError on an out-of-range account-key index) are modelled with `Except`.
Instruction data is carried as its decoded byte list (the base58 decode done
by the external `base58` library is outside the scope of the core logic).
-/

namespace Surfpool

/-- A compiled instruction as it appears in a confirmed transaction message:
an index into the message account-key table plus (decoded) instruction data. -/
structure CompiledInstruction where
  program_id_index : Nat
  data : List Nat

/-- The transaction message: the account-key table and the ordered list of
top-level instructions (`message.account_keys`, `message.instructions`). -/
structure Message where
  account_keys : List String
  instructions : List CompiledInstruction

/-- Transaction metadata: the optional on-chain error (`meta.err`) and the
inner-instruction records, each pairing a top-level instruction index with
the ordered list of inner instructions it produced
(`meta.inner_instructions`). -/
structure TxMeta where
  err : Option String
  inner_instructions : List (Nat × List CompiledInstruction)

/-- A confirmed transaction result, the input to extraction and scoring. -/
structure TxResult where
  message : Message
  meta : TxMeta

/-- A discovery key: `(program_identity, discriminator)`. -/
abbrev Key := String × Nat

/-- One entry of the ordered instruction list built by
`_get_ordered_instructions`: the resolved program identity and the decoded
instruction data. -/
structure InstrRec where
  program_id : String
  data : List Nat

/-- The Python exceptions `_get_ordered_instructions` can raise:
`keyError` for `inner_instructions[idx]` on a missing index, `indexError`
for `message.account_keys[i]` out of range. -/
inductive ExtractErr where
  | keyError
  | indexError

/-- Lookup in the dict `{ix.index: ix.instructions for ix in
meta.inner_instructions}`: a Python dict comprehension keeps the last
binding of a duplicated index, hence the lookup on the reversed list. -/
def dictLookup (m : List (Nat × List CompiledInstruction)) (i : Nat) :
    Option (List CompiledInstruction) :=
  List.lookup i m.reverse

/-- Resolve one compiled instruction against the account-key table:
`{'program_id': message.account_keys[ix.program_id_index], 'data': ...}`.
An out-of-range index raises IndexError in Python. -/
def resolveIx (keys : List String) (ix : CompiledInstruction) :
    Except ExtractErr InstrRec :=
  match keys.get? ix.program_id_index with
  | some pid => .ok { program_id := pid, data := ix.data }
  | none => .error .indexError

/-- Resolve a list of inner instructions left to right, propagating the
first failure. -/
def resolveAll (keys : List String) :
    List CompiledInstruction → Except ExtractErr (List InstrRec)
  | [] => .ok []
  | ix :: rest =>
    match resolveIx keys ix, resolveAll keys rest with
    | .ok r, .ok rs => .ok (r :: rs)
    | .error e, _ => .error e
    | .ok _, .error e => .error e

/-- The loop body of `_get_ordered_instructions`: for each top-level
instruction at enumeration index `idx`, append its own record, then extend
with the records of `inner_instructions[idx]` — a plain dict subscript, so a
missing index is a KeyError, not an empty list. -/
def extractFrom (keys : List String)
    (inner : List (Nat × List CompiledInstruction)) :
    Nat → List CompiledInstruction → Except ExtractErr (List InstrRec)
  | _, [] => .ok []
  | idx, ix :: rest =>
    match resolveIx keys ix with
    | .error e => .error e
    | .ok top =>
      match dictLookup inner idx with
      | none => .error .keyError
      | some innerIxs =>
        match resolveAll keys innerIxs, extractFrom keys inner (idx + 1) rest with
        | .ok innerRecs, .ok tail => .ok (top :: innerRecs ++ tail)
        | .error e, _ => .error e
        | .ok _, .error e => .error e

/-- `_get_ordered_instructions(tx_result)`. -/
def getOrderedInstructions (tx : TxResult) : Except ExtractErr (List InstrRec) :=
  extractFrom tx.message.account_keys tx.meta.inner_instructions 0
    tx.message.instructions

/-- The program identity hard-coded in `_calculate_reward` as the only one
eligible for reward. -/
def KLEND_PROGRAM_ID : String := "KLend2g3cP87fffoy8q1mQqGKjrxjC8boSyAYavgmjD"

/-- `ix['data'][0] if len(ix['data']) > 0 else 0`. -/
def discriminatorOf (data : List Nat) : Nat :=
  match data with
  | [] => 0
  | b :: _ => b

/-- The scoring loop of `_calculate_reward`: for each instruction record in
order, build the key; if it is not yet in the ledger AND the program is the
hard-coded `KLEND_PROGRAM_ID`, add 1 reward and insert the key (dict
insertion appends at the end in insertion order). -/
def rewardLoop : List InstrRec → Nat → List Key → Nat × List Key
  | [], reward, seen => (reward, seen)
  | ix :: rest, reward, seen =>
    if (ix.program_id, discriminatorOf ix.data) ∉ seen
        ∧ ix.program_id = KLEND_PROGRAM_ID then
      rewardLoop rest (reward + 1)
        (seen ++ [(ix.program_id, discriminatorOf ix.data)])
    else
      rewardLoop rest reward seen

/-- `_calculate_reward(tx_result)` as a function of the ledger: returns the
reward and the updated ledger. The `meta.err` check returns 0 before any
extraction; otherwise the extracted instruction list is scored (extraction
failures propagate as the corresponding Python exception). -/
def calculateReward (tx : TxResult) (seen : List Key) :
    Except ExtractErr (Nat × List Key) :=
  if tx.meta.err.isSome then .ok (0, seen)
  else
    match getOrderedInstructions tx with
    | .ok ixs => .ok (rewardLoop ixs 0 seen)
    | .error e => .error e

/-- The environment fields touched by the reward pipeline:
`program_instructions_seen` (the ledger), `total_reward`,
`last_tx_instruction_count`, `last_tx_reward`. -/
structure EnvState where
  program_instructions_seen : List Key
  total_reward : Nat
  last_tx_instruction_count : Nat
  last_tx_reward : Nat

/-- The state `__init__` produces: empty ledger, all counters 0. -/
def initState : EnvState :=
  { program_instructions_seen := []
    total_reward := 0
    last_tx_instruction_count := 0
    last_tx_reward := 0 }

/-- The state effect of a confirmed-transaction `step`: extract (a raised
KeyError/IndexError escapes `step` before any tracked field is written),
record the instruction count, score, accumulate `total_reward`. -/
def stepTx (s : EnvState) (tx : TxResult) : EnvState :=
  match getOrderedInstructions tx with
  | .error _ => s
  | .ok ixs =>
    match calculateReward tx s.program_instructions_seen with
    | .error _ => { s with last_tx_instruction_count := ixs.length }
    | .ok (r, seen2) =>
      { s with
        program_instructions_seen := seen2
        total_reward := s.total_reward + r
        last_tx_instruction_count := ixs.length
        last_tx_reward := r }

/-- The state effect of `reset`: a fresh agent keypair and validator, the
per-transaction counters zeroed; `program_instructions_seen` and
`total_reward` are deliberately NOT reset (the commented-out lines in the
source flag clearing them as a former bug). -/
def reset (s : EnvState) : EnvState :=
  { s with last_tx_instruction_count := 0, last_tx_reward := 0 }

/-- The operations of the environment that can touch the tracked state:
a step whose transaction was confirmed, an episode reset, and a step whose
submission failed inside the try-block (returns reward 0, state untouched). -/
inductive Op where
  | txStep (tx : TxResult)
  | episodeReset
  | sendFailure

/-- Apply one operation to the environment state. -/
def applyOp (s : EnvState) : Op → EnvState
  | .txStep tx => stepTx s tx
  | .episodeReset => reset s
  | .sendFailure => s

/-- Apply a sequence of operations left to right. -/
def applyOps : List Op → EnvState → EnvState
  | [], s => s
  | op :: rest, s => applyOps rest (applyOp s op)

/-- The observation fields derived from the ledger in `_get_observation`:
both `total_reward` and `unique_instructions_found` are
`len(self.program_instructions_seen)`. -/
structure Observation where
  total_reward : Nat
  unique_instructions_found : Nat
  last_tx_instruction_count : Nat
  last_tx_reward : Nat

/-- `_get_observation` restricted to the fields the claims mention. -/
def getObservation (s : EnvState) : Observation :=
  { total_reward := s.program_instructions_seen.length
    unique_instructions_found := s.program_instructions_seen.length
    last_tx_instruction_count := s.last_tx_instruction_count
    last_tx_reward := s.last_tx_reward }

/-! Concrete transaction records used to evaluate the embedded code on
specific inputs. -/

/-- A successful transaction with a single instruction of a program other
than the hard-coded one, data `[2]`, inner-instruction entry present and
empty. -/
def c1_tx : TxResult :=
  { message :=
      { account_keys := ["SomeOtherProgram1111111111111111111111111111"]
        instructions := [{ program_id_index := 0, data := [2] }] }
    meta := { err := none, inner_instructions := [(0, [])] } }

/-- A failed transaction (`meta.err` recorded) that nevertheless contains a
hard-coded-program instruction which would score on success. -/
def c2_tx : TxResult :=
  { message :=
      { account_keys := [KLEND_PROGRAM_ID]
        instructions := [{ program_id_index := 0, data := [7] }] }
    meta := { err := some "InstructionError", inner_instructions := [(0, [])] } }

/-- A successful transaction with one top-level instruction whose index 0
has NO entry in the inner-instructions mapping. -/
def c3_tx : TxResult :=
  { message :=
      { account_keys := ["11111111111111111111111111111111"]
        instructions := [{ program_id_index := 0, data := [2] }] }
    meta := { err := none, inner_instructions := [] } }

/-- A successful transaction containing the same (system program, 2) pair
twice — e.g. two identical self-transfers. -/
def c4_tx : TxResult :=
  { message :=
      { account_keys := ["11111111111111111111111111111111"]
        instructions :=
          [{ program_id_index := 0, data := [2] },
           { program_id_index := 0, data := [2] }] }
    meta := { err := none, inner_instructions := [(0, []), (1, [])] } }

/-- Account-key table for the nested-ordering instance. -/
def c5_keys : List String := ["ProgA11111", "ProgInner11", "ProgB11111"]

/-- Top-level instruction A. -/
def c5_A : CompiledInstruction := { program_id_index := 0, data := [10] }

/-- Inner instruction A1 of A. -/
def c5_A1 : CompiledInstruction := { program_id_index := 1, data := [11] }

/-- Inner instruction A2 of A. -/
def c5_A2 : CompiledInstruction := { program_id_index := 1, data := [12] }

/-- Top-level instruction B, with no inner instructions. -/
def c5_B : CompiledInstruction := { program_id_index := 2, data := [13] }

/-- Inner-instruction mapping: index 0 ↦ [A1, A2], index 1 ↦ []. -/
def c5_inner : List (Nat × List CompiledInstruction) :=
  [(0, [c5_A1, c5_A2]), (1, [])]

/-- A successful transaction with two different empty-data instructions of
the same (non-hard-coded) program. -/
def c6_tx : TxResult :=
  { message :=
      { account_keys := ["TokenProgram11111111111111111111111111111111"]
        instructions :=
          [{ program_id_index := 0, data := [] },
           { program_id_index := 0, data := [] }] }
    meta := { err := none, inner_instructions := [(0, []), (1, [])] } }

/-- An environment state whose ledger already holds one key. -/
def c7_s0 : EnvState :=
  { program_instructions_seen := [(KLEND_PROGRAM_ID, 2)]
    total_reward := 1
    last_tx_instruction_count := 1
    last_tx_reward := 1 }

/-- A successful transaction with one hard-coded-program instruction,
data `[5]`. -/
def c9_tx : TxResult :=
  { message :=
      { account_keys := [KLEND_PROGRAM_ID]
        instructions := [{ program_id_index := 0, data := [5] }] }
    meta := { err := none, inner_instructions := [(0, [])] } }

/-- A successful transaction with zero instructions. -/
def c9_zero : TxResult :=
  { message := { account_keys := [], instructions := [] }
    meta := { err := none, inner_instructions := [] } }

/-! Helper lemmas about the scoring loop and the state transitions. -/

theorem rewardLoop_extends (l : List InstrRec) : ∀ (r : Nat) (seen : List Key),
    ∃ t, (rewardLoop l r seen).2 = seen ++ t := by
  induction l with
  | nil => intro r seen; exact ⟨[], by simp [rewardLoop]⟩
  | cons ix rest ih =>
    intro r seen
    simp only [rewardLoop]
    split
    · obtain ⟨t, ht⟩ :=
        ih (r + 1) (seen ++ [(ix.program_id, discriminatorOf ix.data)])
      exact ⟨(ix.program_id, discriminatorOf ix.data) :: t, by simp [ht]⟩
    · exact ih r seen

theorem rewardLoop_count (l : List InstrRec) : ∀ (r : Nat) (seen : List Key),
    (rewardLoop l r seen).1 + seen.length = (rewardLoop l r seen).2.length + r := by
  induction l with
  | nil => intro r seen; simp [rewardLoop, Nat.add_comm]
  | cons ix rest ih =>
    intro r seen
    simp only [rewardLoop]
    split
    · have h := ih (r + 1) (seen ++ [(ix.program_id, discriminatorOf ix.data)])
      simp only [List.length_append, List.length_singleton] at h
      omega
    · exact ih r seen

theorem rewardLoop_bound (l : List InstrRec) : ∀ (r : Nat) (seen : List Key),
    (rewardLoop l r seen).1 ≤ r + l.length := by
  induction l with
  | nil => intro r seen; simp [rewardLoop]
  | cons ix rest ih =>
    intro r seen
    simp only [rewardLoop, List.length_cons]
    split
    · have h := ih (r + 1) (seen ++ [(ix.program_id, discriminatorOf ix.data)])
      omega
    · have h := ih r seen
      omega

theorem calculateReward_extends (tx : TxResult) (seen : List Key) (r : Nat)
    (seen2 : List Key) (h : calculateReward tx seen = .ok (r, seen2)) :
    ∃ t, seen2 = seen ++ t := by
  unfold calculateReward at h
  split at h
  · simp only [Except.ok.injEq, Prod.mk.injEq] at h
    exact ⟨[], by rw [← h.2]; simp⟩
  · split at h
    · rename_i ixs heq
      have h2 := congrArg Prod.snd (Except.ok.inj h)
      simp only [] at h2
      obtain ⟨t, ht⟩ := rewardLoop_extends ixs 0 seen
      exact ⟨t, by rw [← h2]; exact ht⟩
    · simp at h

theorem calculateReward_count (tx : TxResult) (seen : List Key) (r : Nat)
    (seen2 : List Key) (h : calculateReward tx seen = .ok (r, seen2)) :
    seen2.length = seen.length + r := by
  unfold calculateReward at h
  split at h
  · simp only [Except.ok.injEq, Prod.mk.injEq] at h
    rw [← h.2, ← h.1]
    omega
  · split at h
    · rename_i ixs heq
      have hp := Except.ok.inj h
      have hc := rewardLoop_count ixs 0 seen
      rw [hp] at hc
      simp only [] at hc
      omega
    · simp at h

theorem stepTx_extends (s : EnvState) (tx : TxResult) :
    ∃ t, (stepTx s tx).program_instructions_seen =
      s.program_instructions_seen ++ t := by
  unfold stepTx
  split
  · exact ⟨[], by simp⟩
  · split
    · exact ⟨[], by simp⟩
    · rename_i r seen2 heq
      obtain ⟨t, ht⟩ :=
        calculateReward_extends tx s.program_instructions_seen r seen2 heq
      exact ⟨t, by simpa using ht⟩

theorem applyOp_extends (s : EnvState) (op : Op) :
    ∃ t, (applyOp s op).program_instructions_seen =
      s.program_instructions_seen ++ t := by
  cases op with
  | txStep tx => exact stepTx_extends s tx
  | episodeReset => exact ⟨[], by simp [applyOp, reset]⟩
  | sendFailure => exact ⟨[], by simp [applyOp]⟩

theorem applyOps_extends (ops : List Op) : ∀ (s : EnvState),
    ∃ t, (applyOps ops s).program_instructions_seen =
      s.program_instructions_seen ++ t := by
  induction ops with
  | nil => intro s; exact ⟨[], by simp [applyOps]⟩
  | cons op rest ih =>
    intro s
    obtain ⟨t1, h1⟩ := applyOp_extends s op
    obtain ⟨t2, h2⟩ := ih (applyOp s op)
    refine ⟨t1 ++ t2, ?_⟩
    simp only [applyOps]
    rw [h2, h1, List.append_assoc]

theorem applyOp_total_eq (s : EnvState) (op : Op)
    (h : s.total_reward = s.program_instructions_seen.length) :
    (applyOp s op).total_reward =
      (applyOp s op).program_instructions_seen.length := by
  cases op with
  | episodeReset => simpa [applyOp, reset] using h
  | sendFailure => simpa [applyOp] using h
  | txStep tx =>
    simp only [applyOp, stepTx]
    split
    · exact h
    · split
      · simpa using h
      · rename_i r seen2 heq
        have hc :=
          calculateReward_count tx s.program_instructions_seen r seen2 heq
        show s.total_reward + r = seen2.length
        omega

theorem applyOps_total_eq (ops : List Op) : ∀ (s : EnvState),
    s.total_reward = s.program_instructions_seen.length →
    (applyOps ops s).total_reward =
      (applyOps ops s).program_instructions_seen.length := by
  induction ops with
  | nil => intro s h; simpa [applyOps] using h
  | cons op rest ih =>
    intro s h
    simp only [applyOps]
    exact ih (applyOp s op) (applyOp_total_eq s op h)

/-! The claims. -/

/-- C1: the claim says that with no allow-list configured every newly seen
discovery key of a successful transaction is inserted and rewarded,
regardless of program. The code diverges: `_calculate_reward` additionally
requires `key[0] == KLEND_PROGRAM_ID`, so with an empty ledger a successful
transaction whose single instruction belongs to any other program yields
reward 0 and inserts nothing. -/
theorem c1_hardcoded_filter_blocks_scoring :
    calculateReward c1_tx [] = .ok (0, []) := rfl

/-- C2: for every transaction result whose metadata records an execution
error, the reward computation returns 0 and the ledger is returned
unchanged, regardless of the transaction's instructions. -/
theorem c2_failure_short_circuit (tx : TxResult) (seen : List Key)
    (h : tx.meta.err.isSome) : calculateReward tx seen = .ok (0, seen) := by
  unfold calculateReward
  simp [h]

/-- Witness for C2: a concrete failed transaction that contains an otherwise
scorable instruction yields reward 0 and an untouched ledger. -/
theorem c2_failure_short_circuit_holds :
    c2_tx.meta.err.isSome = true
    ∧ calculateReward c2_tx [(KLEND_PROGRAM_ID, 9)] =
        .ok (0, [(KLEND_PROGRAM_ID, 9)]) :=
  ⟨rfl, c2_failure_short_circuit c2_tx [(KLEND_PROGRAM_ID, 9)] rfl⟩

/-- C3: the claim says a top-level index with no inner-instruction entry is
treated as an empty list and extraction completes normally. The code
diverges: `inner_instructions[idx]` is a plain dict subscript, so extraction
raises KeyError on the concrete transaction whose index 0 has no entry. -/
theorem c3_missing_inner_entry_raises :
    getOrderedInstructions c3_tx = .error .keyError := rfl

/-- C4: the claim says a successful transaction repeating the same
(program, discriminator) pair N times yields reward exactly 1 for that pair
and that a first presentation yields reward > 0. The code diverges: the
same system-program self-transfer pair presented twice against an empty
ledger yields reward 0 (the pair's program is not the hard-coded one), so
neither "exactly 1" nor "first call > 0" holds. -/
theorem c4_duplicate_pair_not_scored :
    calculateReward c4_tx [] = .ok (0, []) := rfl

/-- C5: the extractor emits the record of the top-level instruction first,
immediately followed by its inner-instruction records in their original
order, followed by the extraction of the remaining top-level instructions
in their original left-to-right order. -/
theorem c5_nested_ordering (keys : List String)
    (inner : List (Nat × List CompiledInstruction)) (idx : Nat)
    (ix : CompiledInstruction) (rest : List CompiledInstruction)
    (top : InstrRec) (innerIxs : List CompiledInstruction)
    (innerRecs recs : List InstrRec)
    (h1 : resolveIx keys ix = .ok top)
    (h2 : dictLookup inner idx = some innerIxs)
    (h3 : resolveAll keys innerIxs = .ok innerRecs)
    (h4 : extractFrom keys inner (idx + 1) rest = .ok recs) :
    extractFrom keys inner idx (ix :: rest) = .ok (top :: innerRecs ++ recs) := by
  simp [extractFrom, h1, h2, h3, h4]

/-- Witness for C5: top-level instructions [A, B] where A has inner
instructions [A1, A2] and B has none — the extracted order is
[A, A1, A2, B]. -/
theorem c5_nested_ordering_holds :
    extractFrom c5_keys c5_inner 0 [c5_A, c5_B] =
      .ok [{ program_id := "ProgA11111", data := [10] },
           { program_id := "ProgInner11", data := [11] },
           { program_id := "ProgInner11", data := [12] },
           { program_id := "ProgB11111", data := [13] }] :=
  c5_nested_ordering c5_keys c5_inner 0 c5_A [c5_B]
    { program_id := "ProgA11111", data := [10] }
    [c5_A1, c5_A2]
    [{ program_id := "ProgInner11", data := [11] },
     { program_id := "ProgInner11", data := [12] }]
    [{ program_id := "ProgB11111", data := [13] }]
    rfl rfl rfl rfl

/-- C6: the claim says two different empty-data instructions of the same
program map to the same discovery key (discriminator 0) and are scored as a
single discovery. The discriminator part holds, but the code diverges on
scoring: for a program other than the hard-coded one the two instructions
are scored as zero discoveries, not one. -/
theorem c6_empty_data_collapse_not_scored :
    discriminatorOf [] = 0 ∧ calculateReward c6_tx [] = .ok (0, []) :=
  ⟨rfl, rfl⟩

/-- C7: across every sequence of environment operations the ledger is
monotone: every key present before is present after (keys are never
removed, so a key only moves from absent to present), and the ledger's
size never decreases. -/
theorem c7_ledger_monotone (ops : List Op) (s : EnvState) :
    (∀ k, k ∈ s.program_instructions_seen →
        k ∈ (applyOps ops s).program_instructions_seen)
    ∧ s.program_instructions_seen.length ≤
        (applyOps ops s).program_instructions_seen.length := by
  obtain ⟨t, ht⟩ := applyOps_extends ops s
  constructor
  · intro k hk
    rw [ht]
    exact List.mem_append_left t hk
  · rw [ht]
    simp only [List.length_append]
    omega

/-- Witness for C7: a key present in a concrete ledger survives a reset
followed by a failed submission, and the ledger size does not decrease. -/
theorem c7_ledger_monotone_holds :
    (KLEND_PROGRAM_ID, 2) ∈
      (applyOps [Op.episodeReset, Op.sendFailure] c7_s0).program_instructions_seen
    ∧ c7_s0.program_instructions_seen.length ≤
      (applyOps [Op.episodeReset, Op.sendFailure] c7_s0).program_instructions_seen.length :=
  ⟨(c7_ledger_monotone [Op.episodeReset, Op.sendFailure] c7_s0).1
      (KLEND_PROGRAM_ID, 2) (by simp [c7_s0]),
   (c7_ledger_monotone [Op.episodeReset, Op.sendFailure] c7_s0).2⟩

/-- C8: an episode reset leaves the seen-key ledger and the cumulative
reward total unchanged (only the per-transaction counters are zeroed). -/
theorem c8_reset_preserves_ledger (s : EnvState) :
    (reset s).program_instructions_seen = s.program_instructions_seen
    ∧ (reset s).total_reward = s.total_reward :=
  ⟨rfl, rfl⟩

/-- C9: the computed reward is a natural number bounded above by the number
of extracted instructions, and a transaction with zero instructions
extracts to the empty sequence and yields reward 0. -/
theorem c9_reward_bounds :
    (∀ (tx : TxResult) (seen : List Key) (ixs : List InstrRec) (r : Nat)
        (seen2 : List Key), getOrderedInstructions tx = .ok ixs →
        calculateReward tx seen = .ok (r, seen2) → r ≤ ixs.length)
    ∧ (∀ (tx : TxResult) (seen : List Key), tx.message.instructions = [] →
        getOrderedInstructions tx = .ok [] ∧
          calculateReward tx seen = .ok (0, seen)) := by
  constructor
  · intro tx seen ixs r seen2 hext hcalc
    unfold calculateReward at hcalc
    split at hcalc
    · simp only [Except.ok.injEq, Prod.mk.injEq] at hcalc
      omega
    · split at hcalc
      · rename_i ixs2 heq
        rw [hext] at heq
        have hx := Except.ok.inj heq
        subst hx
        have hp := Except.ok.inj hcalc
        have hb := rewardLoop_bound ixs 0 seen
        rw [hp] at hb
        simp only [] at hb
        omega
      · simp at hcalc
  · intro tx seen hnil
    have hext : getOrderedInstructions tx = .ok [] := by
      unfold getOrderedInstructions
      rw [hnil]
      rfl
    refine ⟨hext, ?_⟩
    unfold calculateReward
    split
    · rfl
    · rw [hext]
      rfl

/-- Witness for C9: a concrete one-instruction transaction has reward 1 ≤ 1,
and the concrete zero-instruction transaction extracts to [] with reward 0. -/
theorem c9_reward_bounds_holds :
    (1 : Nat) ≤ 1
    ∧ (getOrderedInstructions c9_zero = .ok [] ∧
        calculateReward c9_zero [] = .ok (0, [])) :=
  ⟨c9_reward_bounds.1 c9_tx [] [{ program_id := KLEND_PROGRAM_ID, data := [5] }]
      1 [(KLEND_PROGRAM_ID, 5)] rfl rfl,
   c9_reward_bounds.2 c9_zero [] rfl⟩

/-- C10: after any sequence of operations from the initial state, the
cumulative reward total equals the ledger's size, so the observation fields
total_reward and unique_instructions_found (both computed as the ledger's
size) agree with the accumulated per-step rewards. -/
theorem c10_total_reward_matches_ledger (ops : List Op) :
    (applyOps ops initState).total_reward =
      (applyOps ops initState).program_instructions_seen.length
    ∧ (getObservation (applyOps ops initState)).total_reward =
        (applyOps ops initState).total_reward
    ∧ (getObservation (applyOps ops initState)).unique_instructions_found =
        (applyOps ops initState).total_reward := by
  have h := applyOps_total_eq ops initState rfl
  exact ⟨h, by simp [getObservation, h], by simp [getObservation, h]⟩

end Surfpool
